import Mathlib

/-
Verification development for the Bayesian Decomposition (BD) Gibbs sampler
`methods/factorization/bd.py`.

Shallow embedding conventions:
* Python floats are modelled as exact rationals `ℚ`; where NaN/±∞ behaviour of
  IEEE arithmetic is itself the subject of a claim (the `_randr` post-processing,
  lines 170-173 of bd.py) values are modelled by `FVal`, a rational extended
  with `nan`, `posInf`, `negInf`.
* numpy matrices are total functions `ℕ → ℕ → ℚ` together with the dimensions
  carried in `Params`; loops over `xrange(k)` become folds over `List.range k`.
* The pseudo-random source and the transcendental float kernels inside
  `_randr` (lines 162-169: erfc/erfcinv/log/sqrt applied to uniform draws) are
  abstracted by oracles: `Params.cand` yields the raw candidate value of one
  sampled entry given the call counter, the entry index and the arguments
  (m_j, s, l_j) that bd.py passes to `_randr`; `Params.gamma` yields the
  `np.random.gamma(shape, scale)` draw given the call counter and both
  arguments.  The exact-arithmetic shadow of lines 162-169 is modelled
  separately (`randrRaw` below) over abstract primitives `RPrims`.
* Rational division by zero is total (`q / 0 = 0`); concrete counterexamples
  avoid zero denominators so no claim rests on this convention.
-/

namespace BD

/-- Extended numeric value: a rational, NaN, or a signed infinity, modelling
the distinguishable IEEE-double outcomes that the clamping code of `_randr`
(bd.py lines 170-173) inspects. -/
inductive FVal where
  | nan : FVal
  | posInf : FVal
  | negInf : FVal
  | fin : ℚ → FVal
deriving DecidableEq

/-- IEEE test `np.isnan(x)`. -/
def FVal.isNaN : FVal → Bool
  | .nan => true
  | _ => false

/-- IEEE test `np.isinf(x)` (true for either signed infinity, false for NaN). -/
def FVal.isInf : FVal → Bool
  | .posInf => true
  | .negInf => true
  | _ => false

/-- IEEE comparison `x < 0` (false for NaN, true for -inf). -/
def FVal.ltZero : FVal → Bool
  | .nan => false
  | .posInf => false
  | .negInf => true
  | .fin q => decide (q < 0)

/-- bd.py line 170: `x[np.isnan(x)] = 0`. -/
def clampNaN (x : FVal) : FVal := if x.isNaN then .fin 0 else x

/-- bd.py line 171: `x[x < 0] = 0`. -/
def clampNeg (x : FVal) : FVal := if x.ltZero then .fin 0 else x

/-- bd.py line 172: `x[np.isinf(x)] = 0`. -/
def clampInf (x : FVal) : FVal := if x.isInf then .fin 0 else x

/-- Real part extraction, bd.py line 173 `return x.real`; after the three
clamps the value is always finite, so the non-finite cases are unreachable. -/
def realPart : FVal → ℚ
  | .fin q => q
  | _ => 0

/-- Post-processing of one sampled entry, bd.py lines 170-173, in source
order: NaN entries, then negative entries, then infinite entries are
overwritten by exactly 0, and the real part is returned. -/
def postprocess (x : FVal) : ℚ := realPart (clampInf (clampNeg (clampNaN x)))

/-- Sum of `f 0 + ... + f (k-1)`, the shallow embedding of a Python loop or a
numpy reduction over an axis of length `k`. -/
def lsum (k : ℕ) (f : ℕ → ℚ) : ℚ := ((List.range k).map f).sum

/-- Index list `nn` built by bd.py lines 139 and 152:
`list(xrange(n - 1)) + list(xrange(n, self.rank))`.  (Python `n - 1` for
`n = 0` is `-1` and `xrange(-1)` is empty, which agrees with truncated `ℕ`
subtraction.) -/
def nnIdx (n rank : ℕ) : List ℕ := List.range (n - 1) ++ List.range' n (rank - n)

/-- Index list demanded by the spec (§4.3 step 2): all column indices except
exactly `n`, i.e. `[0..n-1] ++ [n+1..rank-1]`. -/
def nnSpecIdx (n rank : ℕ) : List ℕ := List.range n ++ List.range' (n + 1) (rank - (n + 1))

/-- Conditional-mean entry that bd.py line 140 passes to `_randr` for column
`n` of W, at row `j`:
`sop(D[:, n] - dot(W[:, nn], C[nn, n]), C[n, n], div)`. -/
def wMean (rank : ℕ) (C D W : ℕ → ℕ → ℚ) (n j : ℕ) : ℚ :=
  (D j n - ((nnIdx n rank).map fun i => W j i * C i n).sum) / C n n

/-- Conditional-mean entry according to the spec's words: the leave-one-out
sum excludes exactly column `n`. -/
def wMeanSpec (rank : ℕ) (C D W : ℕ → ℕ → ℚ) (n j : ℕ) : ℚ :=
  (D j n - ((nnSpecIdx n rank).map fun i => W j i * C i n).sum) / C n n

/-- Conditional-mean entry that bd.py line 153 passes to `_randr` for row `n`
of H, at column `t`: `sop(F[n, :] - dot(E[n, nn], H[nn, :]), E[n, n], div)`. -/
def hMean (rank : ℕ) (E F H : ℕ → ℕ → ℚ) (n t : ℕ) : ℚ :=
  (F n t - ((nnIdx n rank).map fun i => E n i * H i t).sum) / E n n

/-- H-side conditional-mean entry according to the spec's words: the
leave-one-out sum excludes exactly row `n`. -/
def hMeanSpec (rank : ℕ) (E F H : ℕ → ℕ → ℚ) (n t : ℕ) : ℚ :=
  (F n t - ((nnSpecIdx n rank).map fun i => E n i * H i t).sum) / E n n

/-- Configuration of one factorization job: the dimensions, the target matrix
V, the priors and thinning/freeze options fixed by `_set_params`, the stopping
options read by `_is_satisfied`, and the two randomness oracles. -/
structure Params where
  m : ℕ
  n : ℕ
  rank : ℕ
  V : ℕ → ℕ → ℚ
  alpha : ℕ → ℕ → ℚ
  beta : ℕ → ℕ → ℚ
  theta : ℚ
  k : ℚ
  skip : ℕ
  stride : ℕ
  n_w : ℕ → Bool
  n_h : ℕ → Bool
  n_sigma : Bool
  max_iter : ℤ
  min_residuals : Option ℚ
  test_conv : ℕ
  cand : ℕ → ℕ → ℚ → ℚ → ℚ → FVal
  gamma : ℕ → ℚ → ℚ → ℚ

/-- Mutable state of one run: the factor matrices, the noise variance, the
oracle call counters `rcnt` (`_randr` calls) and `gcnt` (`np.random.gamma`
calls), and the instrumentation counter `scnt` recording how many inner Gibbs
sweeps (bd.py lines 134-155, one iteration of the loop at line 133) have been
executed. -/
structure St where
  W : ℕ → ℕ → ℚ
  H : ℕ → ℕ → ℚ
  sigma : ℚ
  rcnt : ℕ
  gcnt : ℕ
  scnt : ℕ

/-- Gram matrix `C = dot(H, H.T)`, bd.py line 135. -/
def Cmat (p : Params) (H : ℕ → ℕ → ℚ) (i i2 : ℕ) : ℚ :=
  lsum p.n fun t => H i t * H i2 t

/-- Cross term `D = dot(V, H.T)`, bd.py line 136. -/
def Dmat (p : Params) (H : ℕ → ℕ → ℚ) (j i : ℕ) : ℚ :=
  lsum p.n fun t => p.V j t * H i t

/-- Gram matrix `E = dot(W.T, W)`, bd.py line 148. -/
def Emat (p : Params) (W : ℕ → ℕ → ℚ) (i i2 : ℕ) : ℚ :=
  lsum p.m fun j => W j i * W j i2

/-- Cross term `F = dot(W.T, V)`, bd.py line 149. -/
def Fmat (p : Params) (W : ℕ → ℕ → ℚ) (i t : ℕ) : ℚ :=
  lsum p.m fun j => W j i * p.V j t

/-- Constant `v = multiply(V, V).sum() / 2`, computed once per factorization
job at bd.py line 84. -/
def vConst (p : Params) : ℚ :=
  (lsum p.m fun j => lsum p.n fun t => p.V j t * p.V j t) / 2

/-- Elementwise-product sum `multiply(W, dot(W, C) - 2 * D).sum()` appearing
in the sigma update, bd.py line 146. -/
def wcInner (p : Params) (C D W : ℕ → ℕ → ℚ) : ℚ :=
  lsum p.m fun j => lsum p.rank fun i =>
    W j i * ((lsum p.rank fun i2 => W j i2 * C i2 i) - 2 * D j i)

/-- Resampling of one column `n` of W, bd.py lines 138-142: skipped when the
freeze mask `n_w[n]` is set; otherwise one `_randr` call draws the column from
arguments `(wMean, sigma / C[n, n], alpha[:, n])` and the clamped result is
written back into rows `0..m-1` of column `n`. -/
def updateWCol (p : Params) (C D : ℕ → ℕ → ℚ) (st : St) (n : ℕ) : St :=
  if p.n_w n then st
  else
    let s : ℚ := st.sigma / C n n
    let temp : ℕ → ℚ := fun j =>
      postprocess (p.cand st.rcnt j (wMean p.rank C D st.W n j) s (p.alpha j n))
    { st with
      W := fun j i => if i = n ∧ j < p.m then temp j else st.W j i
      rcnt := st.rcnt + 1 }

/-- Resampling of one row `n` of H, bd.py lines 151-155: skipped when the
freeze mask `n_h[n]` is set; otherwise one `_randr` call draws the row from
arguments `(hMean, sigma / E[n, n], beta[n, :].T)` and the clamped result is
written back into columns `0..n-1` of row `n`. -/
def updateHRow (p : Params) (E F : ℕ → ℕ → ℚ) (st : St) (n : ℕ) : St :=
  if p.n_h n then st
  else
    let s : ℚ := st.sigma / E n n
    let temp : ℕ → ℚ := fun t =>
      postprocess (p.cand st.rcnt t (hMean p.rank E F st.H n t) s (p.beta n t))
    { st with
      H := fun i t => if i = n ∧ t < p.n then temp t else st.H i t
      rcnt := st.rcnt + 1 }

/-- W-update phase of a sweep, bd.py lines 135-142: compute C and D from the
current H, then resample every non-frozen column of W in index order. -/
def wPhase (p : Params) (st : St) : St :=
  (List.range p.rank).foldl (updateWCol p (Cmat p st.H) (Dmat p st.H)) st

/-- Sigma-update phase, bd.py lines 144-146: unless `n_sigma` is set, sigma
becomes the reciprocal of a Gamma draw with shape
`(m * n) / 2. + 1. + k` and scale
`1. / (theta + v + multiply(W, dot(W, C) - 2 * D).sum() / 2.)`, where C and D
are the statistics computed at the start of the sweep and W is the state
after the W-update phase. -/
def sigmaPhase (p : Params) (C D : ℕ → ℕ → ℚ) (st1 : St) : St :=
  if p.n_sigma then st1
  else
    { st1 with
      sigma := 1 / p.gamma st1.gcnt (((p.m * p.n : ℕ) : ℚ) / 2 + 1 + p.k)
        (1 / (p.theta + vConst p + wcInner p C D st1.W / 2))
      gcnt := st1.gcnt + 1 }

/-- H-update phase, bd.py lines 148-155: compute E and F from the (updated)
W, then resample every non-frozen row of H in index order. -/
def hPhase (p : Params) (st2 : St) : St :=
  (List.range p.rank).foldl (updateHRow p (Emat p st2.W) (Fmat p st2.W)) st2

/-- One inner Gibbs sweep, bd.py lines 134-155, in source order: W-update
phase (with C, D from the sweep's start), sigma update, H-update phase.
`scnt` counts completed sweeps. -/
def sweep (p : Params) (st : St) : St :=
  let st3 := hPhase p (sigmaPhase p (Cmat p st.H) (Dmat p st.H) (wPhase p st))
  { st3 with scnt := st3.scnt + 1 }

/-- Embedding of `Bd.update`, bd.py lines 131-133: executes
`skip * (iter == 0) + stride * (iter > 0)` inner sweeps. -/
def update (p : Params) (iter : ℕ) (st : St) : St :=
  (sweep p)^[p.skip * (if iter = 0 then 1 else 0) + p.stride * (if 0 < iter then 1 else 0)] st

/-- Squared Frobenius residual `sop(V - dot(W, H), 2, pow).sum()`,
`Bd.objective`, bd.py line 177. -/
def objective (p : Params) (st : St) : ℚ :=
  lsum p.m fun j => lsum p.n fun t =>
    (p.V j t - lsum p.rank fun i => st.W j i * st.H i t) ^ 2

/-- Python truthiness of the `min_residuals` attribute: `None` and `0.0` are
falsy, any other float is truthy. -/
def truthyOQ : Option ℚ → Bool
  | none => false
  | some r => decide (r ≠ 0)

/-- Embedding of `Bd._is_satisfied`, bd.py lines 107-115: `true` means the per-run
sampling loop continues.  `maxIter` is the Python int attribute (truthy iff
nonzero), `minResiduals` the optional float attribute. -/
def is_satisfied (maxIter : ℤ) (minResiduals : Option ℚ) (pobj cobj : ℚ)
    (iter : ℕ) : Bool :=
  if maxIter ≠ 0 ∧ maxIter < (iter : ℤ) then false
  else if truthyOQ minResiduals = true ∧ 0 < iter ∧ cobj - pobj ≤ minResiduals.getD 0 then
    false
  else if 0 < iter ∧ pobj ≤ cobj then false
  else true

/-- One run's sampling loop, bd.py lines 88-94, fuel-indexed: while
`_is_satisfied(pobj, cobj, iter)` holds, set `pobj := cobj`, execute
`update(iter)`, recompute `cobj` (only every `test_conv`-th iteration when
`test_conv` is truthy), and increment `iter`.  Returns the final state, the
final `cobj` and the final `iter`. -/
def runLoopAux (p : Params) : ℕ → St → ℚ → ℚ → ℕ → St × ℚ × ℕ
  | 0, st, _pobj, cobj, iter => (st, cobj, iter)
  | fuel + 1, st, pobj, cobj, iter =>
    if is_satisfied p.max_iter p.min_residuals pobj cobj iter then
      let st2 := update p iter st
      let cobj2 :=
        if p.test_conv = 0 ∨ iter % p.test_conv = 0 then objective p st2 else cobj
      runLoopAux p fuel st2 cobj cobj2 (iter + 1)
    else (st, cobj, iter)

/-- One run of `Bd.factorize` starting from a seeded state, bd.py lines
88-94: `pobj = cobj = self.objective()`, `iter = 0`, then the sampling loop. -/
def runOnce (p : Params) (st : St) (fuel : ℕ) : St × ℚ × ℕ :=
  runLoopAux p fuel st (objective p st) (objective p st) 0

/-- Sweep count reported after the run loop: `self.n_iter = iter - 1`,
bd.py line 102 (a Python int, so the subtraction is over ℤ). -/
def nIterOf (r : St × ℚ × ℕ) : ℤ := (r.2.2 : ℤ) - 1

/-- A numpy/scipy matrix as stored by `_set_params`: its shape and its
entries.  Shape is carried explicitly because claim C3 is about shapes. -/
structure QMat where
  rows : ℕ
  cols : ℕ
  entry : ℕ → ℕ → ℚ

/-- Zero matrix of a given shape (`sp.csr_matrix((r, c))` / `np.zeros((r, c))`). -/
def zerosQ (r c : ℕ) : QMat := ⟨r, c, fun _ _ => 0⟩

/-- The keyword-option dictionary consumed by `_set_params`, bd.py lines
119-128: each `options.get(key, default)` is modelled by an `Option` field
(`none` = key absent). -/
structure BdOptions where
  alpha : Option QMat
  beta : Option QMat
  theta : Option ℚ
  k : Option ℚ
  sigma : Option ℚ
  skip : Option ℕ
  stride : Option ℕ
  n_w : Option QMat
  n_h : Option QMat
  n_sigma : Option ℤ

/-- The attributes written by `_set_params` (bd.py lines 117-128). -/
structure SetCfg where
  max_iter : ℤ
  alpha : QMat
  beta : QMat
  theta : ℚ
  k : ℚ
  sigma : ℚ
  skip : ℕ
  stride : ℕ
  n_w : QMat
  n_h : QMat
  n_sigma : ℤ

/-- Embedding of `Bd._set_params`, bd.py lines 117-128.  `maxIter0` is the pre-existing
`max_iter` attribute (a Python int or `None`); line 118 replaces any falsy
value (`None` or `0`) by 30.  Every other option is fetched with
`options.get(key, default)`: the supplied value is stored verbatim when the
key is present, the default otherwise.  No shape inspection occurs and the
function has no failure path. -/
def set_params (m n rank : ℕ) (maxIter0 : Option ℤ) (o : BdOptions) : SetCfg where
  max_iter := match maxIter0 with
    | none => 30
    | some z => if z = 0 then 30 else z
  alpha := o.alpha.getD (zerosQ m rank)
  beta := o.beta.getD (zerosQ rank n)
  theta := o.theta.getD 0
  k := o.k.getD 0
  sigma := o.sigma.getD 1
  skip := o.skip.getD 100
  stride := o.stride.getD 1
  n_w := o.n_w.getD (zerosQ rank 1)
  n_h := o.n_h.getD (zerosQ rank 1)
  n_sigma := o.n_sigma.getD 0

/-- Shape discipline stated by the spec (§3, §7): alpha is m×rank, beta is
rank×n, the freeze masks are rank×1.  bd.py never evaluates this predicate;
it exists to compare the spec's demanded detection against the source. -/
def priorShapesOk (m n rank : ℕ) (c : SetCfg) : Bool :=
  (c.alpha.rows = m && c.alpha.cols = rank) &&
  (c.beta.rows = rank && c.beta.cols = n) &&
  (c.n_w.rows = rank && c.n_w.cols = 1) &&
  (c.n_h.rows = rank && c.n_h.cols = 1)

/-- Abstract real-analytic primitives used by `_randr` lines 162-169:
`scipy.special.erfc`, `scipy.special.erfcinv`, `np.log` and `sqrt`. -/
structure RPrims where
  erfc : ℚ → ℚ
  erfcinv : ℚ → ℚ
  logq : ℚ → ℚ
  sqrtq : ℚ → ℚ

/-- Standardized tilt `A = (l * s - m) / sqrt(2 * s)`, bd.py line 162,
for one entry. -/
def stdTilt (pr : RPrims) (mv lv s : ℚ) : ℚ := (lv * s - mv) / pr.sqrtq (2 * s)

/-- Exponential-tail draw `x = -log(y) / ((l * s - m) / s)`, bd.py line 166,
for one entry with uniform draw `u`. -/
def tailDraw (pr : RPrims) (mv lv s u : ℚ) : ℚ :=
  - pr.logq u / ((lv * s - mv) / s)

/-- Inverse-CDF draw
`x = erfcinv(y * R - (A < 0) * (2 * y + R - 2)) * sqrt(2 * s) + m - l * s`
with `R = erfc(|A|)`, bd.py lines 168-169, for one entry with uniform draw
`u`. -/
def mainDraw (pr : RPrims) (mv lv s u : ℚ) : ℚ :=
  let A := stdTilt pr mv lv s
  let R := pr.erfc |A|
  pr.erfcinv (u * R - (if A < 0 then 1 else 0) * (2 * u + R - 2)) * pr.sqrtq (2 * s)
    + mv - lv * s

/-- State of the candidate vector after bd.py lines 164-166: `x` is zeroed,
then the masked assignment `x[a] = ...` with `a = A > 26.` fills exactly the
deep-tail entries. -/
def randrAfterTail (pr : RPrims) (mv lv : ℕ → ℚ) (s : ℚ) (u : ℕ → ℚ) (j : ℕ) : ℚ :=
  if stdTilt pr (mv j) (lv j) s > 26 then tailDraw pr (mv j) (lv j) s (u j) else 0

/-- Candidate vector after bd.py lines 167-169: the mask is complemented
(`a = np.array(1 - a, dtype=bool)`) and the masked assignment fills the
remaining entries with the inverse-CDF draw. -/
def randrRaw (pr : RPrims) (mv lv : ℕ → ℚ) (s : ℚ) (u : ℕ → ℚ) (j : ℕ) : ℚ :=
  if ¬ stdTilt pr (mv j) (lv j) s > 26 then mainDraw pr (mv j) (lv j) s (u j)
  else randrAfterTail pr mv lv s u j

/-- Nonnegativity of the factor matrices, the invariant claimed in spec §3. -/
def nonnegSt (st : St) : Prop :=
  (∀ j i, 0 ≤ st.W j i) ∧ ∀ i t, 0 ≤ st.H i t

/-- Concrete 2x2 Gram matrix C for the claim C1 counterexample:
`C[0,0] = 1`, all other entries 0. -/
def cexC : ℕ → ℕ → ℚ := fun i i2 => if i = 0 ∧ i2 = 0 then 1 else 0

/-- Concrete cross-term matrix D for the claim C1 counterexample: all ones. -/
def cexD : ℕ → ℕ → ℚ := fun _ _ => 1

/-- Concrete basis matrix W for the claim C1 counterexample: column 0 is all
ones, every other column 0. -/
def cexW : ℕ → ℕ → ℚ := fun _ i => if i = 0 then 1 else 0

/-- Concrete mixture matrix H for the claim C1 counterexample: row of W read
as an H (entry `H i t` is 1 when `t = 0`). -/
def cexH : ℕ → ℕ → ℚ := fun _ t => if t = 0 then 1 else 0

/-- Concrete example job: V the 1x1 all-ones matrix, rank 1, zero priors,
skip = stride = 1, nothing frozen, the candidate oracle always yielding 0 and
the Gamma oracle always yielding 1. -/
def exP : Params where
  m := 1
  n := 1
  rank := 1
  V := fun _ _ => 1
  alpha := fun _ _ => 0
  beta := fun _ _ => 0
  theta := 0
  k := 0
  skip := 1
  stride := 1
  n_w := fun _ => false
  n_h := fun _ => false
  n_sigma := false
  max_iter := 30
  min_residuals := none
  test_conv := 0
  cand := fun _ _ _ _ _ => FVal.fin 0
  gamma := fun _ _ _ => 1

/-- Concrete example state: zero factors, unit variance, zeroed counters. -/
def exSt : St where
  W := fun _ _ => 0
  H := fun _ _ => 0
  sigma := 1
  rcnt := 0
  gcnt := 0
  scnt := 0

/-- Example job with everything frozen at index 0: `n_w[0]`, `n_h[0]` and
`n_sigma` set. -/
def exPFz : Params :=
  { exP with
    rank := 2
    n_w := fun i => decide (i = 0)
    n_h := fun i => decide (i = 0)
    n_sigma := true }

/-- Example state with distinguishable frozen values. -/
def exStFz : St :=
  { exSt with W := fun _ _ => 5, H := fun _ _ => 7, sigma := 3 }

/-- Concrete analytic primitives for the claim C7 witness: sqrt and erfcinv
the identity, log and erfc constant. -/
def pr0 : RPrims where
  erfc := fun _ => 0
  erfcinv := fun x => x
  logq := fun _ => 1
  sqrtq := fun q => q

/-- Mis-shaped alpha prior for the claim C3 counterexample: a 5x7 all-threes
matrix supplied to a job with m = 2, rank = 1. -/
def badAlphaC3 : QMat := ⟨5, 7, fun _ _ => 3⟩

/-- Option dictionary supplying only the mis-shaped alpha. -/
def optsC3 : BdOptions :=
  ⟨some badAlphaC3, none, none, none, none, none, none, none, none, none⟩

/-- Option dictionary supplying alpha, beta and both freeze masks (used by
the claim C3 amended witness). -/
def optsC3b : BdOptions :=
  ⟨some badAlphaC3, some (zerosQ 9 9), none, none, none, none, none,
    some badAlphaC3, some (zerosQ 9 9), none⟩

/-- Empty option dictionary. -/
def optsNone : BdOptions :=
  ⟨none, none, none, none, none, none, none, none, none, none⟩

theorem postprocess_nonneg (x : FVal) : 0 ≤ postprocess x := by
  cases x with
  | nan => simp [postprocess, clampNaN, clampNeg, clampInf, FVal.isNaN, FVal.ltZero,
      FVal.isInf, realPart]
  | posInf => simp [postprocess, clampNaN, clampNeg, clampInf, FVal.isNaN, FVal.ltZero,
      FVal.isInf, realPart]
  | negInf => simp [postprocess, clampNaN, clampNeg, clampInf, FVal.isNaN, FVal.ltZero,
      FVal.isInf, realPart]
  | fin q =>
    by_cases h : q < 0 <;>
      simp [postprocess, clampNaN, clampNeg, clampInf, FVal.isNaN, FVal.ltZero,
        FVal.isInf, realPart, h]
    exact le_of_not_lt h

theorem postprocess_bad_eq_zero (x : FVal)
    (h : x.isNaN = true ∨ x.ltZero = true ∨ x.isInf = true) : postprocess x = 0 := by
  cases x with
  | nan => rfl
  | posInf => rfl
  | negInf => rfl
  | fin q =>
    rcases h with h | h | h
    · exact absurd h (by simp [FVal.isNaN])
    · have hq : q < 0 := by simpa [FVal.ltZero] using h
      simp [postprocess, clampNaN, clampNeg, clampInf, FVal.isNaN, FVal.ltZero,
        FVal.isInf, realPart, hq]
    · exact absurd h (by simp [FVal.isInf])

theorem foldl_proj {α : Type} (f : St → ℕ → St) (g : St → α)
    (hf : ∀ st n, g (f st n) = g st) :
    ∀ (l : List ℕ) (st : St), g (l.foldl f st) = g st := by
  intro l
  induction l with
  | nil => intro st; rfl
  | cons a l ih => intro st; rw [List.foldl_cons, ih, hf]

theorem foldl_inv {P : St → Prop} (f : St → ℕ → St)
    (hf : ∀ st n, P st → P (f st n)) :
    ∀ (l : List ℕ) (st : St), P st → P (l.foldl f st) := by
  intro l
  induction l with
  | nil => intro st h; exact h
  | cons a l ih => intro st h; exact ih (f st a) (hf st a h)

theorem updateWCol_sigma (p : Params) (C D : ℕ → ℕ → ℚ) (st : St) (n : ℕ) :
    (updateWCol p C D st n).sigma = st.sigma := by
  unfold updateWCol; split <;> rfl

theorem updateWCol_gcnt (p : Params) (C D : ℕ → ℕ → ℚ) (st : St) (n : ℕ) :
    (updateWCol p C D st n).gcnt = st.gcnt := by
  unfold updateWCol; split <;> rfl

theorem updateWCol_scnt (p : Params) (C D : ℕ → ℕ → ℚ) (st : St) (n : ℕ) :
    (updateWCol p C D st n).scnt = st.scnt := by
  unfold updateWCol; split <;> rfl

theorem updateWCol_H (p : Params) (C D : ℕ → ℕ → ℚ) (st : St) (n : ℕ) :
    (updateWCol p C D st n).H = st.H := by
  unfold updateWCol; split <;> rfl

theorem updateHRow_sigma (p : Params) (E F : ℕ → ℕ → ℚ) (st : St) (n : ℕ) :
    (updateHRow p E F st n).sigma = st.sigma := by
  unfold updateHRow; split <;> rfl

theorem updateHRow_gcnt (p : Params) (E F : ℕ → ℕ → ℚ) (st : St) (n : ℕ) :
    (updateHRow p E F st n).gcnt = st.gcnt := by
  unfold updateHRow; split <;> rfl

theorem updateHRow_scnt (p : Params) (E F : ℕ → ℕ → ℚ) (st : St) (n : ℕ) :
    (updateHRow p E F st n).scnt = st.scnt := by
  unfold updateHRow; split <;> rfl

theorem updateHRow_W (p : Params) (E F : ℕ → ℕ → ℚ) (st : St) (n : ℕ) :
    (updateHRow p E F st n).W = st.W := by
  unfold updateHRow; split <;> rfl

theorem updateWCol_frozen (p : Params) (C D : ℕ → ℕ → ℚ) (st : St) (n i j : ℕ)
    (hi : p.n_w i = true) : (updateWCol p C D st n).W j i = st.W j i := by
  unfold updateWCol
  split
  · rfl
  · rename_i hn
    have hne : i ≠ n := by
      intro h; subst h; exact hn (by simp [hi])
    simp [hne]

theorem updateHRow_frozen (p : Params) (E F : ℕ → ℕ → ℚ) (st : St) (n i t : ℕ)
    (hi : p.n_h i = true) : (updateHRow p E F st n).H i t = st.H i t := by
  unfold updateHRow
  split
  · rfl
  · rename_i hn
    have hne : i ≠ n := by
      intro h; subst h; exact hn (by simp [hi])
    simp [hne]

theorem wfold_proj {α : Type} (p : Params) (C D : ℕ → ℕ → ℚ) (g : St → α)
    (hf : ∀ st n, g (updateWCol p C D st n) = g st) (l : List ℕ) (st : St) :
    g (l.foldl (updateWCol p C D) st) = g st :=
  foldl_proj _ g hf l st

theorem hfold_proj {α : Type} (p : Params) (E F : ℕ → ℕ → ℚ) (g : St → α)
    (hf : ∀ st n, g (updateHRow p E F st n) = g st) (l : List ℕ) (st : St) :
    g (l.foldl (updateHRow p E F) st) = g st :=
  foldl_proj _ g hf l st

theorem wPhase_scnt (p : Params) (st : St) : (wPhase p st).scnt = st.scnt :=
  wfold_proj p _ _ St.scnt (fun st n => updateWCol_scnt p _ _ st n) _ st

theorem wPhase_gcnt (p : Params) (st : St) : (wPhase p st).gcnt = st.gcnt :=
  wfold_proj p _ _ St.gcnt (fun st n => updateWCol_gcnt p _ _ st n) _ st

theorem wPhase_sigma (p : Params) (st : St) : (wPhase p st).sigma = st.sigma :=
  wfold_proj p _ _ St.sigma (fun st n => updateWCol_sigma p _ _ st n) _ st

theorem wPhase_H (p : Params) (st : St) : (wPhase p st).H = st.H :=
  wfold_proj p _ _ St.H (fun st n => updateWCol_H p _ _ st n) _ st

theorem wPhase_frozen (p : Params) (st : St) (i j : ℕ) (hi : p.n_w i = true) :
    (wPhase p st).W j i = st.W j i :=
  wfold_proj p _ _ (fun st => st.W j i)
    (fun st n => updateWCol_frozen p _ _ st n i j hi) _ st

theorem hPhase_scnt (p : Params) (st : St) : (hPhase p st).scnt = st.scnt :=
  hfold_proj p _ _ St.scnt (fun st n => updateHRow_scnt p _ _ st n) _ st

theorem hPhase_gcnt (p : Params) (st : St) : (hPhase p st).gcnt = st.gcnt :=
  hfold_proj p _ _ St.gcnt (fun st n => updateHRow_gcnt p _ _ st n) _ st

theorem hPhase_sigma (p : Params) (st : St) : (hPhase p st).sigma = st.sigma :=
  hfold_proj p _ _ St.sigma (fun st n => updateHRow_sigma p _ _ st n) _ st

theorem hPhase_W (p : Params) (st : St) : (hPhase p st).W = st.W :=
  hfold_proj p _ _ St.W (fun st n => updateHRow_W p _ _ st n) _ st

theorem hPhase_frozen (p : Params) (st : St) (i t : ℕ) (hi : p.n_h i = true) :
    (hPhase p st).H i t = st.H i t :=
  hfold_proj p _ _ (fun st => st.H i t)
    (fun st n => updateHRow_frozen p _ _ st n i t hi) _ st

theorem sigmaPhase_scnt (p : Params) (C D : ℕ → ℕ → ℚ) (st : St) :
    (sigmaPhase p C D st).scnt = st.scnt := by
  unfold sigmaPhase; split <;> rfl

theorem sigmaPhase_W (p : Params) (C D : ℕ → ℕ → ℚ) (st : St) :
    (sigmaPhase p C D st).W = st.W := by
  unfold sigmaPhase; split <;> rfl

theorem sigmaPhase_H (p : Params) (C D : ℕ → ℕ → ℚ) (st : St) :
    (sigmaPhase p C D st).H = st.H := by
  unfold sigmaPhase; split <;> rfl

theorem sweep_scnt (p : Params) (st : St) : (sweep p st).scnt = st.scnt + 1 := by
  show (hPhase p (sigmaPhase p (Cmat p st.H) (Dmat p st.H) (wPhase p st))).scnt + 1 =
    st.scnt + 1
  rw [hPhase_scnt, sigmaPhase_scnt, wPhase_scnt]

theorem iterate_sweep_scnt (p : Params) (k : ℕ) (st : St) :
    ((sweep p)^[k] st).scnt = st.scnt + k := by
  induction k with
  | zero => rfl
  | succ k ih => rw [Function.iterate_succ_apply', sweep_scnt, ih]; omega

theorem sweep_frozenW (p : Params) (st : St) (i j : ℕ) (hi : p.n_w i = true) :
    (sweep p st).W j i = st.W j i := by
  show (hPhase p (sigmaPhase p (Cmat p st.H) (Dmat p st.H) (wPhase p st))).W j i =
    st.W j i
  rw [hPhase_W, sigmaPhase_W, wPhase_frozen p st i j hi]

theorem sweep_frozenH (p : Params) (st : St) (i t : ℕ) (hi : p.n_h i = true) :
    (sweep p st).H i t = st.H i t := by
  show (hPhase p (sigmaPhase p (Cmat p st.H) (Dmat p st.H) (wPhase p st))).H i t =
    st.H i t
  rw [hPhase_frozen p _ i t hi, sigmaPhase_H]
  exact congrFun (congrFun (wPhase_H p st) i) t

theorem sweep_frozenSigma (p : Params) (st : St) (hs : p.n_sigma = true) :
    (sweep p st).sigma = st.sigma := by
  show (hPhase p (sigmaPhase p (Cmat p st.H) (Dmat p st.H) (wPhase p st))).sigma =
    st.sigma
  rw [hPhase_sigma]
  unfold sigmaPhase
  rw [if_pos hs, wPhase_sigma]

theorem iterate_sweep_frozenW (p : Params) (k : ℕ) (st : St) (i j : ℕ)
    (hi : p.n_w i = true) : ((sweep p)^[k] st).W j i = st.W j i := by
  induction k with
  | zero => rfl
  | succ k ih => rw [Function.iterate_succ_apply', sweep_frozenW _ _ _ _ hi, ih]

theorem iterate_sweep_frozenH (p : Params) (k : ℕ) (st : St) (i t : ℕ)
    (hi : p.n_h i = true) : ((sweep p)^[k] st).H i t = st.H i t := by
  induction k with
  | zero => rfl
  | succ k ih => rw [Function.iterate_succ_apply', sweep_frozenH _ _ _ _ hi, ih]

theorem iterate_sweep_frozenSigma (p : Params) (k : ℕ) (st : St)
    (hs : p.n_sigma = true) : ((sweep p)^[k] st).sigma = st.sigma := by
  induction k with
  | zero => rfl
  | succ k ih => rw [Function.iterate_succ_apply', sweep_frozenSigma _ _ hs, ih]

theorem update_eq_zero (p : Params) (st : St) :
    update p 0 st = (sweep p)^[p.skip] st := by
  simp [update]

theorem update_eq_pos (p : Params) (st : St) (iter : ℕ) (h : 0 < iter) :
    update p iter st = (sweep p)^[p.stride] st := by
  have h0 : ¬ iter = 0 := by omega
  simp [update, h0, h]

theorem update_scnt_zero (p : Params) (st : St) :
    (update p 0 st).scnt = st.scnt + p.skip := by
  rw [update_eq_zero, iterate_sweep_scnt]

theorem update_scnt_pos (p : Params) (st : St) (iter : ℕ) (h : 0 < iter) :
    (update p iter st).scnt = st.scnt + p.stride := by
  rw [update_eq_pos p st iter h, iterate_sweep_scnt]

theorem updateWCol_nonneg (p : Params) (C D : ℕ → ℕ → ℚ) (st : St) (n : ℕ)
    (h : nonnegSt st) : nonnegSt (updateWCol p C D st n) := by
  unfold updateWCol
  split
  · exact h
  · refine ⟨fun j i => ?_, fun i t => h.2 i t⟩
    dsimp only
    split
    · exact postprocess_nonneg _
    · exact h.1 j i

theorem updateHRow_nonneg (p : Params) (E F : ℕ → ℕ → ℚ) (st : St) (n : ℕ)
    (h : nonnegSt st) : nonnegSt (updateHRow p E F st n) := by
  unfold updateHRow
  split
  · exact h
  · refine ⟨fun j i => h.1 j i, fun i t => ?_⟩
    dsimp only
    split
    · exact postprocess_nonneg _
    · exact h.2 i t

theorem sigmaPhase_nonneg (p : Params) (C D : ℕ → ℕ → ℚ) (st : St)
    (h : nonnegSt st) : nonnegSt (sigmaPhase p C D st) := by
  unfold sigmaPhase
  split
  · exact h
  · exact ⟨fun j i => h.1 j i, fun i t => h.2 i t⟩

theorem sweep_nonneg (p : Params) (st : St) (h : nonnegSt st) :
    nonnegSt (sweep p st) := by
  show nonnegSt { hPhase p (sigmaPhase p (Cmat p st.H) (Dmat p st.H) (wPhase p st)) with
    scnt := _ }
  have h1 : nonnegSt (wPhase p st) :=
    foldl_inv _ (fun st n => updateWCol_nonneg p _ _ st n) _ st h
  have h2 := sigmaPhase_nonneg p (Cmat p st.H) (Dmat p st.H) _ h1
  have h3 : nonnegSt (hPhase p (sigmaPhase p (Cmat p st.H) (Dmat p st.H) (wPhase p st))) :=
    foldl_inv _ (fun st n => updateHRow_nonneg p _ _ st n) _ _ h2
  exact ⟨fun j i => h3.1 j i, fun i t => h3.2 i t⟩

theorem iterate_sweep_nonneg (p : Params) (k : ℕ) (st : St) (h : nonnegSt st) :
    nonnegSt ((sweep p)^[k] st) := by
  induction k with
  | zero => exact h
  | succ k ih => rw [Function.iterate_succ_apply']; exact sweep_nonneg p _ ih

theorem is_satisfied_zero (mi : ℤ) (mr : Option ℚ) (pobj cobj : ℚ) (h : 0 ≤ mi) :
    is_satisfied mi mr pobj cobj 0 = true := by
  unfold is_satisfied
  have h1 : ¬(mi ≠ 0 ∧ mi < ((0 : ℕ) : ℤ)) := by push_cast; omega
  have h2 : ¬(truthyOQ mr = true ∧ 0 < 0 ∧ cobj - pobj ≤ mr.getD 0) := by simp
  have h3 : ¬(0 < 0 ∧ pobj ≤ cobj) := by simp
  rw [if_neg h1, if_neg h2, if_neg h3]

theorem runLoopAux_inv (p : Params) :
    ∀ (fuel : ℕ) (st : St) (pobj cobj : ℚ) (iter : ℕ), 1 ≤ iter →
      iter ≤ (runLoopAux p fuel st pobj cobj iter).2.2 ∧
      (((runLoopAux p fuel st pobj cobj iter).1.scnt : ℤ) =
        (st.scnt : ℤ) +
          (p.stride : ℤ) * (((runLoopAux p fuel st pobj cobj iter).2.2 : ℤ) - (iter : ℤ))) := by
  intro fuel
  induction fuel with
  | zero =>
    intro st pobj cobj iter h1
    refine ⟨le_refl _, ?_⟩
    show (st.scnt : ℤ) = (st.scnt : ℤ) + (p.stride : ℤ) * ((iter : ℤ) - (iter : ℤ))
    ring
  | succ fuel ih =>
    intro st pobj cobj iter h1
    simp only [runLoopAux]
    split
    · rcases ih (update p iter st) cobj
        (if p.test_conv = 0 ∨ iter % p.test_conv = 0 then objective p (update p iter st)
          else cobj) (iter + 1) (by omega) with ⟨ha, hb⟩
      refine ⟨by omega, ?_⟩
      have hst2 : ((update p iter st).scnt : ℤ) = (st.scnt : ℤ) + (p.stride : ℤ) := by
        exact_mod_cast update_scnt_pos p st iter (by omega)
      rw [hb, hst2]
      push_cast
      ring
    · refine ⟨le_refl _, ?_⟩
      show (st.scnt : ℤ) = (st.scnt : ℤ) + (p.stride : ℤ) * ((iter : ℤ) - (iter : ℤ))
      ring

theorem set_params_max_iter_ne (m n rank : ℕ) (mi0 : Option ℤ) (o : BdOptions) :
    (set_params m n rank mi0 o).max_iter ≠ 0 := by
  cases mi0 with
  | none => simp [set_params]
  | some z =>
    by_cases hz : z = 0 <;> simp [set_params, hz]

/-- Claim C1: the conditional mean passed to the rectified-Gaussian sampler
for column `n` of W is claimed to use the leave-one-out index list excluding
exactly `n`.  The code (bd.py lines 139 and 152) instead builds
`nn = list(xrange(n - 1)) + list(xrange(n, rank))`, which always contains `n`
itself and omits `n - 1`; at `rank = 2`, `n = 0` the list the code uses is
`[0, 1]` while the spec demands `[1]`, and on the concrete statistics
`cexC`, `cexD`, `cexW`/`cexH` the mean the code computes (0) differs from
the leave-one-out mean the spec demands (1), on the W side and, by the same
expression, on the H side. -/
theorem c1_leave_one_out_bug :
    nnIdx 0 2 = [0, 1] ∧ 0 ∈ nnIdx 0 2 ∧ nnSpecIdx 0 2 = [1] ∧
    nnIdx 1 2 = [1] ∧ nnSpecIdx 1 2 = [0] ∧
    wMean 2 cexC cexD cexW 0 0 = 0 ∧ wMeanSpec 2 cexC cexD cexW 0 0 = 1 ∧
    wMean 2 cexC cexD cexW 0 0 ≠ wMeanSpec 2 cexC cexD cexW 0 0 ∧
    hMean 2 cexC cexD cexH 0 0 = 0 ∧ hMeanSpec 2 cexC cexD cexH 0 0 = 1 := by
  have h1 : nnIdx 0 2 = [0, 1] := by decide
  have h2 : nnSpecIdx 0 2 = [1] := by decide
  have hw : wMean 2 cexC cexD cexW 0 0 = 0 := by
    unfold wMean
    rw [h1]
    norm_num [cexC, cexD, cexW]
  have hws : wMeanSpec 2 cexC cexD cexW 0 0 = 1 := by
    unfold wMeanSpec
    rw [h2]
    norm_num [cexC, cexD, cexW]
  have hh : hMean 2 cexC cexD cexH 0 0 = 0 := by
    unfold hMean
    rw [h1]
    norm_num [cexC, cexD, cexH]
  have hhs : hMeanSpec 2 cexC cexD cexH 0 0 = 1 := by
    unfold hMeanSpec
    rw [h2]
    norm_num [cexC, cexD, cexH]
  refine ⟨h1, by decide, h2, by decide, by decide, hw, hws, ?_, hh, hhs⟩
  rw [hw, hws]
  norm_num

/-- Claim C2: the per-run sampling loop stops (the predicate
`_is_satisfied` returns false) exactly when max_iter is truthy and the
iteration counter exceeds it, or min_residuals is truthy, the counter is
positive and `cobj - pobj ≤ min_residuals`, or the counter is positive and
`cobj ≥ pobj`; it continues otherwise. -/
theorem c2_stop_iff (mi : ℤ) (mr : Option ℚ) (pobj cobj : ℚ) (iter : ℕ) :
    is_satisfied mi mr pobj cobj iter = false ↔
      (mi ≠ 0 ∧ mi < (iter : ℤ)) ∨
      (∃ r, mr = some r ∧ r ≠ 0 ∧ 0 < iter ∧ cobj - pobj ≤ r) ∨
      (0 < iter ∧ cobj ≥ pobj) := by
  unfold is_satisfied
  split_ifs with h1 h2 h3
  · exact iff_of_true rfl (Or.inl h1)
  · refine iff_of_true rfl (Or.inr (Or.inl ?_))
    rcases h2 with ⟨ht, hi, hle⟩
    cases mr with
    | none => exact absurd ht (by simp [truthyOQ])
    | some r => exact ⟨r, rfl, by simpa [truthyOQ] using ht, hi, by simpa using hle⟩
  · exact iff_of_true rfl (Or.inr (Or.inr ⟨h3.1, h3.2⟩))
  · refine iff_of_false (by simp) ?_
    rintro (h | ⟨r, hr, hrne, hi, hle⟩ | h)
    · exact h1 h
    · exact h2 ⟨by simp [truthyOQ, hr, hrne], hi, by simpa [hr] using hle⟩
    · exact h3 ⟨h.1, h.2⟩

/-- Claim C3, counterexample: `_set_params` performs no shape check. A 5x7
alpha supplied to a job with m = 2, n = 3, rank = 1 (so alpha should be 2x1)
is stored exactly as supplied, entries included — parameter setup completes
normally instead of reporting an invalid-configuration failure, even though
the spec's shape discipline is violated. -/
theorem c3_no_validation_cex :
    (set_params 2 3 1 none optsC3).alpha.rows = 5 ∧
    (set_params 2 3 1 none optsC3).alpha.cols = 7 ∧
    (set_params 2 3 1 none optsC3).alpha.entry 0 0 = 3 ∧
    priorShapesOk 2 3 1 (set_params 2 3 1 none optsC3) = false := by
  refine ⟨rfl, rfl, ?_, ?_⟩ <;> decide

/-- Claim C3, amended: `_set_params` stores alpha, beta, n_w and n_h exactly
as supplied, whatever their shapes; no detection, truncation or broadcast
takes place before the first sweep. -/
theorem c3_amended (m n rank : ℕ) (mi0 : Option ℤ) (o : BdOptions)
    (a b nw nh : QMat) (ha : o.alpha = some a) (hb : o.beta = some b)
    (hw : o.n_w = some nw) (hh : o.n_h = some nh) :
    (set_params m n rank mi0 o).alpha = a ∧ (set_params m n rank mi0 o).beta = b ∧
    (set_params m n rank mi0 o).n_w = nw ∧ (set_params m n rank mi0 o).n_h = nh := by
  refine ⟨?_, ?_, ?_, ?_⟩ <;> simp [set_params, ha, hb, hw, hh]

/-- Witness for the amended claim C3 at a concrete mis-shaped configuration. -/
theorem c3_amended_w :
    (set_params 2 3 1 none optsC3b).alpha = badAlphaC3 ∧
    (set_params 2 3 1 none optsC3b).beta = zerosQ 9 9 ∧
    (set_params 2 3 1 none optsC3b).n_w = badAlphaC3 ∧
    (set_params 2 3 1 none optsC3b).n_h = zerosQ 9 9 :=
  c3_amended 2 3 1 none optsC3b badAlphaC3 (zerosQ 9 9) badAlphaC3 (zerosQ 9 9)
    rfl rfl rfl rfl

/-- Claim C4: every candidate entry of the rectified-Gaussian sampler is
post-processed so that NaN, negative and infinite values become exactly 0
and the result is a nonnegative finite rational; consequently any number of
Gibbs sweeps started from nonnegative W and H leaves every entry of W and H
nonnegative (and, being rationals of the model, free of NaN/Infinity). -/
theorem c4_sampler_nonneg :
    (∀ x : FVal, 0 ≤ postprocess x ∧
      ((x.isNaN = true ∨ x.ltZero = true ∨ x.isInf = true) → postprocess x = 0)) ∧
    ∀ (p : Params) (k : ℕ) (st : St), nonnegSt st → nonnegSt ((sweep p)^[k] st) :=
  ⟨fun x => ⟨postprocess_nonneg x, postprocess_bad_eq_zero x⟩,
    fun p k st h => iterate_sweep_nonneg p k st h⟩

/-- Witness for claim C4: a NaN candidate is clamped to 0, and two sweeps of
the concrete example job preserve the nonnegativity of the zero state. -/
theorem c4_sampler_nonneg_w :
    postprocess FVal.nan = 0 ∧ nonnegSt ((sweep exP)^[2] exSt) :=
  ⟨(c4_sampler_nonneg.1 FVal.nan).2 (Or.inl rfl),
    c4_sampler_nonneg.2 exP 2 exSt ⟨fun _ _ => le_refl 0, fun _ _ => le_refl 0⟩⟩

/-- Claim C5: in every sweep with sigma not frozen, sigma is resampled
exactly once (the Gamma-oracle counter advances by exactly one, and not at
all during the W phase), after the W columns are updated and before E, F and
the H rows are computed, as the reciprocal of a Gamma draw with shape
`(m * n) / 2 + 1 + k` and scale
`1 / (theta + v + ⟨W, W C - 2 D⟩ / 2)`, where `v = ‖V‖² / 2` and C, D are the
statistics computed at the start of the sweep and W is the post-W-phase
basis matrix. -/
theorem c5_sigma_update (p : Params) (st : St) (h : p.n_sigma = false) :
    (sweep p st).sigma =
      1 / p.gamma st.gcnt (((p.m * p.n : ℕ) : ℚ) / 2 + 1 + p.k)
        (1 / (p.theta + vConst p +
          wcInner p (Cmat p st.H) (Dmat p st.H) (wPhase p st).W / 2)) ∧
    (sweep p st).gcnt = st.gcnt + 1 ∧ (wPhase p st).gcnt = st.gcnt := by
  have hg : (wPhase p st).gcnt = st.gcnt := wPhase_gcnt p st
  have hns : ¬ (p.n_sigma = true) := by simp [h]
  refine ⟨?_, ?_, hg⟩
  · show (hPhase p (sigmaPhase p (Cmat p st.H) (Dmat p st.H) (wPhase p st))).sigma = _
    rw [hPhase_sigma]
    unfold sigmaPhase
    rw [if_neg hns]
    show (1 : ℚ) / p.gamma (wPhase p st).gcnt _ _ = _
    rw [hg]
  · show (hPhase p (sigmaPhase p (Cmat p st.H) (Dmat p st.H) (wPhase p st))).gcnt + 0 =
      st.gcnt + 1
    rw [Nat.add_zero, hPhase_gcnt]
    unfold sigmaPhase
    rw [if_neg hns]
    show (wPhase p st).gcnt + 1 = st.gcnt + 1
    rw [hg]

/-- Witness for claim C5 at the concrete example job. -/
theorem c5_sigma_update_w :
    (sweep exP exSt).sigma =
      1 / exP.gamma exSt.gcnt (((exP.m * exP.n : ℕ) : ℚ) / 2 + 1 + exP.k)
        (1 / (exP.theta + vConst exP +
          wcInner exP (Cmat exP exSt.H) (Dmat exP exSt.H) (wPhase exP exSt).W / 2)) ∧
    (sweep exP exSt).gcnt = exSt.gcnt + 1 ∧ (wPhase exP exSt).gcnt = exSt.gcnt :=
  c5_sigma_update exP exSt rfl

/-- Claim C6: a call of `Bd.update` with iteration counter 0 executes
exactly `skip` inner sweeps and a call with positive counter executes
exactly `stride` inner sweeps. -/
theorem c6_update_counts (p : Params) (st : St) (iter : ℕ) :
    (iter = 0 → update p iter st = (sweep p)^[p.skip] st ∧
      (update p iter st).scnt = st.scnt + p.skip) ∧
    (0 < iter → update p iter st = (sweep p)^[p.stride] st ∧
      (update p iter st).scnt = st.scnt + p.stride) := by
  constructor
  · rintro rfl
    exact ⟨update_eq_zero p st, update_scnt_zero p st⟩
  · intro h
    exact ⟨update_eq_pos p st iter h, update_scnt_pos p st iter h⟩

/-- Witness for claim C6 at the concrete example job, at iteration counters
0 and 1. -/
theorem c6_update_counts_w :
    (update exP 0 exSt = (sweep exP)^[exP.skip] exSt ∧
      (update exP 0 exSt).scnt = exSt.scnt + exP.skip) ∧
    (update exP 1 exSt = (sweep exP)^[exP.stride] exSt ∧
      (update exP 1 exSt).scnt = exSt.scnt + exP.stride) :=
  ⟨(c6_update_counts exP exSt 0).1 rfl, (c6_update_counts exP exSt 1).2 (by decide)⟩

/-- Claim C7: in the sampler body, exactly the entries whose standardized
tilt `A = (l s - m) / sqrt(2 s)` is strictly greater than 26 are drawn via
the exponential-tail formula `-log(u) / ((l s - m) / s)`, and all other
entries via the inverse-CDF formula
`erfcinv(u R - 1_A<0 (2 u + R - 2)) sqrt(2 s) + m - l s` with `R = erfc |A|`. -/
theorem c7_branches (pr : RPrims) (mv lv : ℕ → ℚ) (s : ℚ) (u : ℕ → ℚ) (j : ℕ) :
    (stdTilt pr (mv j) (lv j) s > 26 →
      randrRaw pr mv lv s u j = - pr.logq (u j) / ((lv j * s - mv j) / s)) ∧
    (¬ stdTilt pr (mv j) (lv j) s > 26 →
      randrRaw pr mv lv s u j =
        pr.erfcinv (u j * pr.erfc |stdTilt pr (mv j) (lv j) s| -
            (if stdTilt pr (mv j) (lv j) s < 0 then 1 else 0) *
              (2 * u j + pr.erfc |stdTilt pr (mv j) (lv j) s| - 2)) *
          pr.sqrtq (2 * s) + mv j - lv j * s) := by
  constructor
  · intro h
    unfold randrRaw randrAfterTail
    rw [if_neg (not_not_intro h), if_pos h]
    rfl
  · intro h
    unfold randrRaw
    rw [if_pos h]
    rfl

/-- Witness for claim C7: with identity sqrt, the inputs m = 0, l = 60,
s = 1 give standardized tilt 30 > 26 and the sampler takes the
exponential-tail branch. -/
theorem c7_branches_w :
    randrRaw pr0 (fun _ => 0) (fun _ => 60) 1 (fun _ => 1 / 2) 0 =
      - pr0.logq (1 / 2) / ((60 * 1 - 0) / 1) :=
  (c7_branches pr0 (fun _ => 0) (fun _ => 60) 1 (fun _ => 1 / 2) 0).1
    (by norm_num [stdTilt, pr0])

/-- Claim C8: for every configuration and every number of sweeps, a frozen
column of W, a frozen row of H and a frozen sigma are unchanged. -/
theorem c8_freeze (p : Params) (st : St) (k : ℕ) :
    (∀ i j, p.n_w i = true → ((sweep p)^[k] st).W j i = st.W j i) ∧
    (∀ i t, p.n_h i = true → ((sweep p)^[k] st).H i t = st.H i t) ∧
    (p.n_sigma = true → ((sweep p)^[k] st).sigma = st.sigma) :=
  ⟨fun i j hi => iterate_sweep_frozenW p k st i j hi,
    fun i t hi => iterate_sweep_frozenH p k st i t hi,
    fun hs => iterate_sweep_frozenSigma p k st hs⟩

/-- Witness for claim C8: three sweeps of the frozen example job leave
`W[:,0]`, `H[0,:]` and sigma at their initial values. -/
theorem c8_freeze_w :
    ((sweep exPFz)^[3] exStFz).W 0 0 = exStFz.W 0 0 ∧
    ((sweep exPFz)^[3] exStFz).H 0 1 = exStFz.H 0 1 ∧
    ((sweep exPFz)^[3] exStFz).sigma = exStFz.sigma :=
  ⟨(c8_freeze exPFz exStFz 3).1 0 0 (by decide),
    (c8_freeze exPFz exStFz 3).2.1 0 1 (by decide),
    (c8_freeze exPFz exStFz 3).2.2 (by decide)⟩

theorem lsum_one (f : ℕ → ℚ) : lsum 1 f = f 0 := by
  simp [lsum, List.range_succ]

theorem postprocess_fin_zero : postprocess (FVal.fin 0) = 0 := by
  norm_num [postprocess, clampNaN, clampNeg, clampInf, FVal.isNaN, FVal.ltZero,
    FVal.isInf, realPart]

theorem runLoopAux_step_true (p : Params) (fuel : ℕ) (st : St) (pobj cobj : ℚ)
    (iter : ℕ)
    (h : is_satisfied p.max_iter p.min_residuals pobj cobj iter = true) :
    runLoopAux p (fuel + 1) st pobj cobj iter =
      runLoopAux p fuel (update p iter st) cobj
        (if p.test_conv = 0 ∨ iter % p.test_conv = 0 then objective p (update p iter st)
          else cobj) (iter + 1) := by
  simp only [runLoopAux, h, if_true]

theorem runLoopAux_step_false (p : Params) (fuel : ℕ) (st : St) (pobj cobj : ℚ)
    (iter : ℕ)
    (h : is_satisfied p.max_iter p.min_residuals pobj cobj iter = false) :
    runLoopAux p (fuel + 1) st pobj cobj iter = (st, cobj, iter) := by
  simp only [runLoopAux, h, Bool.false_eq_true, if_false]

theorem exS_objective : objective exP exSt = 1 := by
  have e : objective exP exSt = (exP.V 0 0 - exSt.W 0 0 * exSt.H 0 0) ^ 2 := by
    show lsum 1 (fun j => lsum 1 fun t =>
      (exP.V j t - lsum 1 fun i => exSt.W j i * exSt.H i t) ^ 2) = _
    simp only [lsum_one]
  rw [e]
  show ((1 : ℚ) - 0 * 0) ^ 2 = 1
  norm_num

theorem exS_sweep_W : (sweep exP exSt).W 0 0 = 0 := by
  show (hPhase exP (sigmaPhase exP (Cmat exP exSt.H) (Dmat exP exSt.H)
    (wPhase exP exSt))).W 0 0 = 0
  rw [hPhase_W, sigmaPhase_W]
  unfold wPhase
  norm_num [exP, exSt, List.range_succ, updateWCol, postprocess_fin_zero]

theorem exS_sweep_H : (sweep exP exSt).H 0 0 = 0 := by
  show (hPhase exP (sigmaPhase exP (Cmat exP exSt.H) (Dmat exP exSt.H)
    (wPhase exP exSt))).H 0 0 = 0
  unfold hPhase
  norm_num [exP, List.range_succ, updateHRow, postprocess_fin_zero]

theorem exS_sweep_objective : objective exP (sweep exP exSt) = 1 := by
  have e : objective exP (sweep exP exSt) =
      (exP.V 0 0 - (sweep exP exSt).W 0 0 * (sweep exP exSt).H 0 0) ^ 2 := by
    show lsum 1 (fun j => lsum 1 fun t =>
      (exP.V j t - lsum 1 fun i =>
        (sweep exP exSt).W j i * (sweep exP exSt).H i t) ^ 2) = _
    simp only [lsum_one]
  rw [e, exS_sweep_W, exS_sweep_H]
  show ((1 : ℚ) - 0 * 0) ^ 2 = 1
  norm_num

theorem exS_sat_one : is_satisfied 30 none 1 1 1 = false := by
  have h1 : ¬((30 : ℤ) ≠ 0 ∧ (30 : ℤ) < ((1 : ℕ) : ℤ)) := by
    intro hcon
    omega
  have h2 : ¬(truthyOQ none = true ∧ 0 < 1 ∧ (1 : ℚ) - 1 ≤ (none : Option ℚ).getD 0) := by
    simp [truthyOQ]
  have h3 : 0 < 1 ∧ (1 : ℚ) ≤ 1 := ⟨Nat.zero_lt_one, le_refl 1⟩
  unfold is_satisfied
  rw [if_neg h1, if_neg h2, if_pos h3]

/-- Claim C9, counterexample: on the concrete example job (skip = stride = 1,
oracles constant), the run executes exactly one Gibbs sweep (`scnt = 1`, one
`update` call) and exits the loop at `iter = 1`, yet the reported count
`n_iter = iter - 1` is 0 — the reported count is not the number of sweeps
executed. -/
theorem c9_cex :
    (runOnce exP exSt 5).2.2 = 1 ∧
    (runOnce exP exSt 5).1.scnt = 1 ∧
    nIterOf (runOnce exP exSt 5) = 0 ∧
    nIterOf (runOnce exP exSt 5) ≠ ((runOnce exP exSt 5).1.scnt : ℤ) := by
  have hsat0 : is_satisfied exP.max_iter exP.min_residuals 1 1 0 = true :=
    is_satisfied_zero 30 none 1 1 (by norm_num)
  have hst2 : update exP 0 exSt = sweep exP exSt := by
    rw [update_eq_zero]
    show (sweep exP)^[1] exSt = sweep exP exSt
    rw [Function.iterate_one]
  have hrun : runOnce exP exSt 5 = (update exP 0 exSt, 1, 1) := by
    unfold runOnce
    rw [exS_objective]
    have e1 : runLoopAux exP 5 exSt 1 1 0 =
        runLoopAux exP 4 (update exP 0 exSt) 1
          (if exP.test_conv = 0 ∨ 0 % exP.test_conv = 0 then
            objective exP (update exP 0 exSt) else 1) 1 :=
      runLoopAux_step_true exP 4 exSt 1 1 0 hsat0
    rw [e1]
    have e2 : (if exP.test_conv = 0 ∨ 0 % exP.test_conv = 0 then
        objective exP (update exP 0 exSt) else 1) = 1 := by
      rw [if_pos (Or.inl (show exP.test_conv = 0 from rfl)), hst2, exS_sweep_objective]
    rw [e2]
    exact runLoopAux_step_false exP 3 (update exP 0 exSt) 1 1 1 exS_sat_one
  rw [hrun]
  have hscnt : (update exP 0 exSt).scnt = 1 := by
    rw [update_scnt_zero]
    rfl
  refine ⟨rfl, hscnt, ?_, ?_⟩
  · rfl
  · show nIterOf (update exP 0 exSt, 1, 1) ≠ ((update exP 0 exSt).scnt : ℤ)
    rw [hscnt]
    decide

/-- Claim C9, amended: for any job with a nonnegative `max_iter` attribute,
the run loop performs at least one `update` call; the reported count
`n_iter = iter - 1` equals the number of update calls after the burn-in
call, and the number of inner Gibbs sweeps actually executed during the run
is `skip + stride * n_iter`, not `n_iter` itself. -/
theorem c9_amended (p : Params) (st : St) (fuel : ℕ) (h : 0 ≤ p.max_iter) :
    1 ≤ (runOnce p st (fuel + 1)).2.2 ∧
    ((runOnce p st (fuel + 1)).1.scnt : ℤ) =
      (st.scnt : ℤ) + (p.skip : ℤ) + (p.stride : ℤ) * nIterOf (runOnce p st (fuel + 1)) := by
  have hsat : is_satisfied p.max_iter p.min_residuals (objective p st) (objective p st) 0
      = true :=
    is_satisfied_zero p.max_iter p.min_residuals (objective p st) (objective p st) h
  have e1 := runLoopAux_step_true p fuel st (objective p st) (objective p st) 0 hsat
  unfold runOnce
  rw [e1]
  rcases runLoopAux_inv p fuel (update p 0 st) (objective p st)
    (if p.test_conv = 0 ∨ 0 % p.test_conv = 0 then objective p (update p 0 st)
      else objective p st) 1 (le_refl 1) with ⟨ha, hb⟩
  refine ⟨ha, ?_⟩
  rw [hb]
  have h0 : ((update p 0 st).scnt : ℤ) = (st.scnt : ℤ) + (p.skip : ℤ) := by
    exact_mod_cast update_scnt_zero p st
  rw [h0]
  unfold nIterOf
  push_cast
  ring

/-- Witness for the amended claim C9 at the concrete example job. -/
theorem c9_amended_w :
    1 ≤ (runOnce exP exSt 5).2.2 ∧
    ((runOnce exP exSt 5).1.scnt : ℤ) =
      (exSt.scnt : ℤ) + (exP.skip : ℤ) + (exP.stride : ℤ) * nIterOf (runOnce exP exSt 5) :=
  c9_amended exP exSt 4 (by decide)

/-- Claim C10: `_set_params` replaces an unset or falsy `max_iter` by 30, so
the stored `max_iter` is never 0, an unset or zero option becomes exactly 30,
and whenever the stored cap is exceeded the stopping predicate fires — the
max_iter branch of `_is_satisfied` is never silently disabled. -/
theorem c10_max_iter_default (mi0 : Option ℤ) (m n rank : ℕ) (o : BdOptions) :
    (set_params m n rank mi0 o).max_iter ≠ 0 ∧
    ((mi0 = none ∨ mi0 = some 0) → (set_params m n rank mi0 o).max_iter = 30) ∧
    ∀ (mr : Option ℚ) (pobj cobj : ℚ) (iter : ℕ),
      (set_params m n rank mi0 o).max_iter < (iter : ℤ) →
      is_satisfied (set_params m n rank mi0 o).max_iter mr pobj cobj iter = false := by
  refine ⟨set_params_max_iter_ne m n rank mi0 o, ?_, ?_⟩
  · rintro (rfl | rfl) <;> simp [set_params]
  · intro mr pobj cobj iter hlt
    unfold is_satisfied
    rw [if_pos ⟨set_params_max_iter_ne m n rank mi0 o, hlt⟩]

/-- Witness for claim C10: a configured `max_iter` of 0 is replaced by 30,
and at iteration 31 the predicate stops the loop. -/
theorem c10_max_iter_default_w :
    (set_params 2 3 1 (some 0) optsNone).max_iter = 30 ∧
    is_satisfied (set_params 2 3 1 (some 0) optsNone).max_iter none 1 1 31 = false :=
  ⟨(c10_max_iter_default (some 0) 2 3 1 optsNone).2.1 (Or.inr rfl),
    (c10_max_iter_default (some 0) 2 3 1 optsNone).2.2 none 1 1 31 (by decide)⟩

end BD
